import Mathlib

/-!
Verification of weppy/validators/inside.py: the validators inRange, inSet,
DBValidator, inDB and notInDB, embedded shallowly.  Values handled by inSet
are modelled by the dynamic type PyVal; values compared against range bounds
or database fields are modelled as integers.  The external collaborators
(the translation hook, the query-set interface, the ambient request state
and the cachedprop decorator) are modelled from the spec, as marked on each
definition.
-/

/-- Modelled from the spec: the translation hook helpers.translate passes a
human-readable message through localization; treated as the identity. -/
def Weppy.translate (s : String) : String := s

/-- A dynamic value as handled by inSet: None, a string, an integer, a list
or a tuple. -/
inductive PyVal where
  | none : PyVal
  | str : String → PyVal
  | int : Int → PyVal
  | list : List PyVal → PyVal
  | tuple : List PyVal → PyVal

/-- Python truthiness: None, empty strings, zero and empty sequences are
falsy. -/
def PyVal.truthy : PyVal → Bool
  | .none => false
  | .str s => !s.isEmpty
  | .int n => n != 0
  | .list xs => !xs.isEmpty
  | .tuple xs => !xs.isEmpty

mutual

/-- Python repr() restricted to PyVal: strings are quoted, sequences are
bracketed with comma-separated element reprs. -/
def pyRepr : PyVal → String
  | .none => "None"
  | .str s => String.singleton (Char.ofNat 39) ++ s ++ String.singleton (Char.ofNat 39)
  | .int n => toString n
  | .list xs => "[" ++ pyReprList xs ++ "]"
  | .tuple [x] => "(" ++ pyRepr x ++ ",)"
  | .tuple xs => "(" ++ pyReprList xs ++ ")"

/-- Comma-separated reprs of a list of values. -/
def pyReprList : List PyVal → String
  | [] => ""
  | [x] => pyRepr x
  | x :: xs => pyRepr x ++ ", " ++ pyReprList xs

end

/-- Python str(): identity on strings, repr on everything else. -/
def pyStr : PyVal → String
  | .str s => s
  | v => pyRepr v

/-- Python str() of an optional value, as used by the %s interpolation of
_range_error: an absent value displays as "None". -/
def pyOptStr : Option Int → String
  | some m => toString m
  | Option.none => "None"

/-- The character pattern of the %(min)s placeholder. -/
def minPat : List Char := ['%', '(', 'm', 'i', 'n', ')', 's']

/-- The character pattern of the %(max)s placeholder. -/
def maxPat : List Char := ['%', '(', 'm', 'a', 'x', ')', 's']

/-- Python %-interpolation with dict(min=..., max=...), restricted to the
placeholders the validator messages use: each occurrence of %(min)s and
%(max)s in the character stream is replaced by the respective argument. -/
def goFormat (mn mx : String) : List Char → String
  | c0 :: c1 :: c2 :: c3 :: c4 :: c5 :: c6 :: rest =>
    if [c0, c1, c2, c3, c4, c5, c6] = minPat then mn ++ goFormat mn mx rest
    else if [c0, c1, c2, c3, c4, c5, c6] = maxPat then mx ++ goFormat mn mx rest
    else String.singleton c0 ++ goFormat mn mx (c1 :: c2 :: c3 :: c4 :: c5 :: c6 :: rest)
  | c0 :: rest => String.singleton c0 ++ goFormat mn mx rest
  | [] => ""

/-- message % dict(min=mn, max=mx) for the messages used here. -/
def pyFormat (s : String) (mn mx : String) : String := goFormat mn mx s.data

/-- A range bound of inRange: a literal value or a zero-argument callable
resolved at check time.  Values compared against bounds are modelled as
integers, so a present maximum always passes the integer isinstance test
of _range_error. -/
inductive Bound where
  | lit : Int → Bound
  | fn : (Unit → Int) → Bound

/-- minimum() if callable(minimum) else minimum. -/
def Bound.resolve : Bound → Int
  | .lit x => x
  | .fn f => f ()

/-- The inRange validator state: optional minimum and maximum bounds, the
include flag pair, and the optional custom message. -/
structure inRange where
  minimum : Option Bound
  maximum : Option Bound
  inc : Bool × Bool
  message : Option String

/-- inRange._gt: val1 >= val2 when eq else val1 > val2. -/
def inRange._gt (val1 val2 : Int) (eq : Bool) : Bool :=
  if eq then decide (val1 ≥ val2) else decide (val1 > val2)

/-- inRange._lt: val1 <= val2 when eq else val1 < val2. -/
def inRange._lt (val1 val2 : Int) (eq : Bool) : Bool :=
  if eq then decide (val1 ≤ val2) else decide (val1 < val2)

/-- inRange._range_error: when no custom message is given, synthesize one
from the bounds present; an integer maximum is decremented by one for
display; the bound values are then interpolated into the translated
message. -/
def inRange._range_error (message : Option String) (minimum maximum : Option Int) :
    String :=
  let message :=
    match message with
    | some m => m
    | Option.none =>
      if minimum.isSome && maximum.isSome then ("Enter a value between %(min)s and %(max)s")
      else if minimum.isSome then ("Enter a value greater than or equal to %(min)s")
      else if maximum.isSome then ("Enter a value less than or equal to %(max)s")
      else ("Enter a value")
  let maximum := maximum.map (fun x => x - 1)
  pyFormat (Weppy.translate message) (pyOptStr minimum) (pyOptStr maximum)

/-- inRange.__call__: resolve the bounds, pass iff each present bound check
succeeds, otherwise return the value with the translated range error. -/
def inRange.call (r : inRange) (value : Int) : Int × Option String :=
  let minimum := r.minimum.map Bound.resolve
  let maximum := r.maximum.map Bound.resolve
  if ((match minimum with
       | Option.none => true
       | some m => inRange._gt value m r.inc.1) &&
      (match maximum with
       | Option.none => true
       | some m => inRange._lt value m r.inc.2)) = true
  then (value, Option.none)
  else (value, some (Weppy.translate (inRange._range_error r.message minimum maximum)))

/-- Claim C2: for every inRange configuration, with optional bounds given as
literals or zero-argument callables resolved at check time and inclusivity
flags, the check returns the value unchanged; the error is null exactly when
every present bound check succeeds, where the minimum check is value ≥
minimum when inc.1 else value > minimum, and the maximum check is value ≤
maximum when inc.2 else value < maximum; on failure the error is the
non-null translated range message. -/
theorem inRange_call_characterization (r : inRange) (v : Int) :
    (inRange.call r v).1 = v ∧
    ((inRange.call r v).2 = Option.none ↔
      ((∀ m ∈ r.minimum.map Bound.resolve, if r.inc.1 then m ≤ v else m < v) ∧
       (∀ m ∈ r.maximum.map Bound.resolve, if r.inc.2 then v ≤ m else v < m))) ∧
    ((inRange.call r v).2 = Option.none ∨
      (inRange.call r v).2 = some (Weppy.translate (inRange._range_error r.message
        (r.minimum.map Bound.resolve) (r.maximum.map Bound.resolve)))) := by
  rcases r with ⟨mnO, mxO, ⟨i0, i1⟩, msg⟩
  simp only [inRange.call, inRange._gt, inRange._lt]
  rcases mnO with _ | mn <;> rcases mxO with _ | mx <;> cases i0 <;> cases i1 <;>
    simp [Bound.resolve] <;> split <;> simp_all

/-- Witness for claim C2 at a concrete configuration: minimum 1 (literal),
maximum 10 (callable), default inclusivity, value 5 passes. -/
theorem inRange_call_characterization_witness :
    (inRange.call ⟨some (Bound.lit 1), some (Bound.fn (fun _ => 10)), (true, false),
      Option.none⟩ 5).2 = Option.none :=
  ((inRange_call_characterization ⟨some (Bound.lit 1), some (Bound.fn (fun _ => 10)),
      (true, false), Option.none⟩ 5).2.1).2
    (by
      refine ⟨?_, ?_⟩ <;> intro m hm <;> rw [Option.mem_def] at hm <;>
        injection hm with hm <;> subst hm <;> decide)

/-- Claim C5: with no custom message and both bounds present, every failing
inRange check produces the between-min-and-max message in which the
displayed maximum is the resolved maximum decremented by one (values are
integers here), regardless of the inclusivity flags. -/
theorem inRange_display_max_decrement (r : inRange) (v : Int) (mnB mxB : Bound)
    (hmsg : r.message = Option.none) (hmn : r.minimum = some mnB)
    (hmx : r.maximum = some mxB) (hfail : (inRange.call r v).2 ≠ Option.none) :
    (inRange.call r v).2 =
      some (pyFormat ("Enter a value between %(min)s and %(max)s")
        (toString mnB.resolve) (toString (mxB.resolve - 1))) := by
  have h1 : r.minimum.map Bound.resolve = some mnB.resolve := by rw [hmn]; rfl
  have h2 : r.maximum.map Bound.resolve = some mxB.resolve := by rw [hmx]; rfl
  unfold inRange.call at hfail ⊢
  rw [h1, h2, hmsg] at hfail ⊢
  simp only [] at hfail ⊢
  split at hfail
  next hc => exact absurd rfl hfail
  next hc =>
    rw [if_neg hc]
    simp [inRange._range_error, pyOptStr, Weppy.translate]

/-- Witness for claim C5: minimum 1, maximum 10, default inclusivity
(true, false), no custom message, failing value 0: the message displays 9
as the maximum. -/
theorem inRange_display_max_decrement_witness :
    (inRange.call ⟨some (Bound.lit 1), some (Bound.lit 10), (true, false),
      Option.none⟩ 0).2 = some ("Enter a value between 1 and 9") := by
  have h := inRange_display_max_decrement
    ⟨some (Bound.lit 1), some (Bound.lit 10), (true, false), Option.none⟩ 0
    (Bound.lit 1) (Bound.lit 10) rfl rfl rfl (by decide)
  rw [h]; rfl

/-- The multiple argument of inSet: a boolean flag, or a (min, max)
cardinality pair (a two-element tuple). -/
inductive Multiple where
  | flag : Bool → Multiple
  | bounds : Int → Int → Multiple

/-- Python truthiness of the multiple argument: False is falsy; True and
any (min, max) pair (a non-empty tuple) are truthy. -/
def Multiple.truthy : Multiple → Bool
  | .flag b => b
  | .bounds _ _ => true

/-- The inSet validator state after construction: the stringified allowed
items, the multiple argument and the message held by the Validator base
class (modelled from the spec as the configured or default message).  The
labels, zero and sort fields only affect options() and are not needed by
the claims. -/
structure inSet where
  theset : List String
  multiple : Multiple
  message : String

/-- Python: value is None or value == ''. -/
def PyVal.isNoneOrEmptyStr : PyVal → Bool
  | .none => true
  | .str s => s.isEmpty
  | _ => false

/-- The normalization at the top of inSet.__call__: in truthy multiple
mode a falsy value becomes the empty selection, a tuple or list stays
as-is and a scalar becomes a singleton; otherwise the value itself is the
single selection. -/
def inSet.values (s : inSet) (value : PyVal) : List PyVal :=
  if s.multiple.truthy then
    if !value.truthy then []
    else
      match value with
      | .tuple xs => xs
      | .list xs => xs
      | v => [v]
  else [value]

/-- failures = [x for x in values if str(x) not in self.theset]. -/
def inSet.failures (s : inSet) (value : PyVal) : List PyVal :=
  (inSet.values s value).filter (fun x => !s.theset.contains (pyStr x))

/-- inSet.__call__: record the elements whose string form is outside the
set; a recorded failure with a non-empty set returns the original value
with the translated message, unless multiple mode sees a None or empty
string original value; in multiple mode the (min, max) pair then bounds
the selected count; otherwise the value passes. -/
def inSet.call (s : inSet) (value : PyVal) : PyVal × Option String :=
  let values := inSet.values s value
  let failures := inSet.failures s value
  if !failures.isEmpty && !s.theset.isEmpty then
    if s.multiple.truthy && value.isNoneOrEmptyStr then (PyVal.list [], Option.none)
    else (value, some (Weppy.translate s.message))
  else if s.multiple.truthy then
    match s.multiple with
    | .bounds lo hi =>
      if !(decide (lo ≤ (values.length : Int)) && decide ((values.length : Int) < hi)) then
        (PyVal.list values, some (Weppy.translate s.message))
      else (PyVal.list values, Option.none)
    | _ => (PyVal.list values, Option.none)
  else (value, Option.none)

/-- In single mode the failure list is empty when the string form of the
value is allowed, and the singleton value otherwise. -/
theorem inSet_failures_single (s : inSet) (v : PyVal)
    (hm : s.multiple.truthy = false) :
    inSet.failures s v = if pyStr v ∈ s.theset then [] else [v] := by
  unfold inSet.failures inSet.values
  rw [hm]
  by_cases h : pyStr v ∈ s.theset <;>
    simp [h, List.filter_singleton, List.contains, List.elem_iff]

/-- Claim C9: in single mode, inSet returns the value unchanged with no
error when the string form of the value is in the allowed set and also
whenever the allowed set is empty; it returns the value with the non-null
translated message exactly when the set is non-empty and the string form is
absent from it. -/
theorem inSet_single_mode (s : inSet) (v : PyVal)
    (hm : s.multiple = Multiple.flag false) :
    (inSet.call s v = (v, Option.none) ↔ (s.theset = [] ∨ pyStr v ∈ s.theset)) ∧
    (s.theset ≠ [] → pyStr v ∉ s.theset →
      inSet.call s v = (v, some (Weppy.translate s.message))) := by
  have htr : s.multiple.truthy = false := by rw [hm]; rfl
  unfold inSet.call
  rw [inSet_failures_single s v htr, htr]
  by_cases hmem : pyStr v ∈ s.theset <;> by_cases hset : s.theset = [] <;>
    simp [hmem, hset]

/-- Witness for claim C9: theset ["a","b","c"], single mode, value "b"
passes unchanged. -/
theorem inSet_single_mode_witness :
    inSet.call ⟨[("a" : String), "b", "c"], Multiple.flag false, "Invalid"⟩
      (PyVal.str "b") = (PyVal.str "b", Option.none) :=
  (inSet_single_mode ⟨[("a" : String), "b", "c"], Multiple.flag false, "Invalid"⟩
    (PyVal.str "b") rfl).1.mpr (Or.inr (by decide))

/-- In truthy multiple mode a falsy value normalizes to the empty selection
and records no failure. -/
theorem inSet_falsy_values (s : inSet) (v : PyVal)
    (hm : s.multiple.truthy = true) (hv : v.truthy = false) :
    inSet.values s v = [] ∧ inSet.failures s v = [] := by
  have h : inSet.values s v = [] := by
    unfold inSet.values
    rw [hm, hv]
    simp
  exact ⟨h, by unfold inSet.failures; rw [h]; rfl⟩

/-- Claim C4: with a non-empty allowed set and multiple mode enabled as the
boolean flag True, checking a falsy original value such as None returns the
empty list with no error. -/
theorem inSet_multiple_empty_value (s : inSet) (v : PyVal)
    (hm : s.multiple = Multiple.flag true) (hset : s.theset ≠ [])
    (hv : v.truthy = false) :
    inSet.call s v = (PyVal.list [], Option.none) := by
  have htr : s.multiple.truthy = true := by rw [hm]; rfl
  obtain ⟨hval, hfail⟩ := inSet_falsy_values s v htr hv
  unfold inSet.call
  rw [hval, hfail, htr, hm]
  simp

/-- Witness for claim C4: theset ["a","b"], multiple True, value None
returns the empty list with no error. -/
theorem inSet_multiple_empty_value_witness :
    inSet.call ⟨[("a" : String), "b"], Multiple.flag true, "Invalid"⟩ PyVal.none =
      (PyVal.list [], Option.none) :=
  inSet_multiple_empty_value ⟨[("a" : String), "b"], Multiple.flag true, "Invalid"⟩
    PyVal.none rfl (by simp) rfl

/-- Claim C3 fails on the code: with cardinality pair (1, 3), allowed set
["a","b"] and value None, the check does not return ([], null) — the
empty selection reaches the cardinality-bound check and fails it. -/
theorem inSet_empty_value_bounds_counterexample :
    inSet.call ⟨[("a" : String), "b"], Multiple.bounds 1 3, "Invalid"⟩ PyVal.none ≠
      (PyVal.list [], Option.none) := by
  have hval : inSet.call ⟨[("a" : String), "b"], Multiple.bounds 1 3, "Invalid"⟩
      PyVal.none = (PyVal.list [], some ("Invalid")) := rfl
  rw [hval]
  intro h
  exact Option.noConfusion (congrArg Prod.snd h)

/-- Claim C3 amended: in multiple mode with a (min, max) cardinality pair
where 1 ≤ min, checking a falsy original value (such as None) does not take
the empty-selection exemption: the cardinality-bound check is applied to
the empty selection and fails, returning the empty list paired with the
translated message. -/
theorem inSet_empty_value_bounds_checked (s : inSet) (v : PyVal) (lo hi : Int)
    (hm : s.multiple = Multiple.bounds lo hi) (hlo : 1 ≤ lo)
    (hv : v.truthy = false) :
    inSet.call s v = (PyVal.list [], some (Weppy.translate s.message)) := by
  have htr : s.multiple.truthy = true := by rw [hm]; rfl
  obtain ⟨hval, hfail⟩ := inSet_falsy_values s v htr hv
  unfold inSet.call
  rw [hval, hfail, htr, hm]
  have hcond : decide (lo ≤ ((List.length ([] : List PyVal) : Int))) = false := by
    simp
    omega
  simp [hcond]
  omega

/-- Witness for the amended claim C3: cardinality (1, 3), theset ["a","b"],
value None fails with the message. -/
theorem inSet_empty_value_bounds_checked_witness :
    inSet.call ⟨[("a" : String), "b"], Multiple.bounds 1 3, "Invalid"⟩ PyVal.none =
      (PyVal.list [], some ("Invalid")) :=
  inSet_empty_value_bounds_checked
    ⟨[("a" : String), "b"], Multiple.bounds 1 3, "Invalid"⟩ PyVal.none 1 3 rfl
    (by omega) rfl

/-- Claim C8: in multiple mode with a (min, max) cardinality pair, when
the string form of every normalized element is in the allowed set but the
selected count violates min ≤ count < max, the check returns the
normalized value list paired with the non-null translated message. -/
theorem inSet_bounds_violation (s : inSet) (v : PyVal) (lo hi : Int)
    (hm : s.multiple = Multiple.bounds lo hi)
    (hall : ∀ x ∈ inSet.values s v, pyStr x ∈ s.theset)
    (hcount : ¬ (lo ≤ ((inSet.values s v).length : Int) ∧
      ((inSet.values s v).length : Int) < hi)) :
    inSet.call s v =
      (PyVal.list (inSet.values s v), some (Weppy.translate s.message)) := by
  have htr : s.multiple.truthy = true := by rw [hm]; rfl
  have hfail : inSet.failures s v = [] := by
    unfold inSet.failures
    rw [List.filter_eq_nil_iff]
    intro a ha
    simp [List.contains, List.elem_iff, hall a ha]
  unfold inSet.call
  rw [hfail, htr, hm]
  simp [hcount]

/-- Witness for claim C8: cardinality (1, 3), theset ["a","b","c","d"],
selected values ["a","b","c","d"] (count 4) fail. -/
theorem inSet_bounds_violation_witness :
    inSet.call ⟨[("a" : String), "b", "c", "d"], Multiple.bounds 1 3, "Invalid"⟩
      (PyVal.list [PyVal.str "a", PyVal.str "b", PyVal.str "c", PyVal.str "d"]) =
      (PyVal.list [PyVal.str "a", PyVal.str "b", PyVal.str "c", PyVal.str "d"],
        some ("Invalid")) :=
  inSet_bounds_violation
    ⟨[("a" : String), "b", "c", "d"], Multiple.bounds 1 3, "Invalid"⟩
    (PyVal.list [PyVal.str "a", PyVal.str "b", PyVal.str "c", PyVal.str "d"]) 1 3
    rfl (by decide) (by decide)

/-- Claim C10: the multiple-mode ([], null) override of a recorded failure
is dead code: whenever the failure list is non-empty in truthy multiple
mode, the original value is truthy, hence neither None nor the empty
string, so the guard of that return is never satisfied and a recorded
failure with a non-empty set returns the original value with the
translated message. -/
theorem inSet_empty_override_unreachable (s : inSet) (v : PyVal)
    (hm : s.multiple.truthy = true) (hf : inSet.failures s v ≠ []) :
    (v ≠ PyVal.none ∧ v ≠ PyVal.str "") ∧
    (s.theset ≠ [] → inSet.call s v = (v, some (Weppy.translate s.message))) := by
  have hv : v.truthy = true := by
    by_contra h
    have hb : v.truthy = false := by revert h; cases v.truthy <;> simp
    exact hf (inSet_falsy_values s v hm hb).2
  have hne : v.isNoneOrEmptyStr = false := by
    cases v <;> simp_all [PyVal.truthy, PyVal.isNoneOrEmptyStr]
  refine ⟨⟨?_, ?_⟩, ?_⟩
  · intro h; subst h; exact absurd hv (by decide)
  · intro h; subst h; exact absurd hv (by decide)
  · intro hset
    unfold inSet.call
    rw [hm, hne]
    simp [hf, hset]

/-- Witness for claim C10: theset ["a"], multiple True, value "z" records a
failure, so the value is not None nor the empty string and the check fails
with the message. -/
theorem inSet_empty_override_unreachable_witness :
    inSet.call ⟨[("a" : String)], Multiple.flag true, "Invalid"⟩ (PyVal.str "z") =
      (PyVal.str "z", some ("Invalid")) :=
  (inSet_empty_override_unreachable ⟨[("a" : String)], Multiple.flag true, "Invalid"⟩
    (PyVal.str "z") rfl (fun h => List.noConfusion h)).2 (by simp)

/-- The attribute state of a DBValidator instance: the constructor inputs
together with one cache slot per cachedprop accessor.  Modelled from the
spec: utils.cachedprop gives each accessor a lazily-initialized
per-instance slot with an initialization guard. -/
structure DBValidator (DB Table QSet Field : Type) where
  db : DB
  tablename : String
  fieldname : String
  _dbset : Option (DB → QSet)
  cacheTable : Option Table
  cacheDbset : Option QSet
  cacheField : Option Field

/-- Modelled from the spec: the narrow store interface — store[tableId]
resolves a table, store(table) builds the all-rows query-set, and
table[fieldId] resolves a column. -/
structure StoreOps (DB Table QSet Field : Type) where
  getTable : DB → String → Table
  allRows : DB → Table → QSet
  getField : Table → String → Field

/-- DBValidator.table (cachedprop): return the cached table if present,
else resolve self.db[self.tablename] and cache it. -/
def DBValidator.table {DB Table QSet Field : Type}
    (ops : StoreOps DB Table QSet Field) (s : DBValidator DB Table QSet Field) :
    Table × DBValidator DB Table QSet Field :=
  match s.cacheTable with
  | some t => (t, s)
  | Option.none =>
    let t := ops.getTable s.db s.tablename
    (t, { s with cacheTable := some t })

/-- DBValidator.dbset (cachedprop): return the cached query-set if present;
else apply the caller-supplied factory to self.db when one was given, or
build the default all-rows query-set of self.table, and cache it. -/
def DBValidator.dbset {DB Table QSet Field : Type}
    (ops : StoreOps DB Table QSet Field) (s : DBValidator DB Table QSet Field) :
    QSet × DBValidator DB Table QSet Field :=
  match s.cacheDbset with
  | some q => (q, s)
  | Option.none =>
    match s._dbset with
    | some f =>
      let q := f s.db
      (q, { s with cacheDbset := some q })
    | Option.none =>
      let ts := DBValidator.table ops s
      let q := ops.allRows ts.2.db ts.1
      (q, { ts.2 with cacheDbset := some q })

/-- DBValidator.field (cachedprop): return the cached field if present,
else resolve self.table[self.fieldname] and cache it. -/
def DBValidator.field {DB Table QSet Field : Type}
    (ops : StoreOps DB Table QSet Field) (s : DBValidator DB Table QSet Field) :
    Field × DBValidator DB Table QSet Field :=
  match s.cacheField with
  | some f => (f, s)
  | Option.none =>
    let ts := DBValidator.table ops s
    let f := ops.getField ts.1 ts.2.fieldname
    (f, { ts.2 with cacheField := some f })

/-- Mutation of the constructor inputs of an instance after construction;
the cache slots are attribute state of the instance and stay. -/
def DBValidator.mutate {DB Table QSet Field : Type}
    (s : DBValidator DB Table QSet Field) (db2 : DB) (tn2 fn2 : String)
    (ds2 : Option (DB → QSet)) : DBValidator DB Table QSet Field :=
  { s with db := db2, tablename := tn2, fieldname := fn2, _dbset := ds2 }

/-- Claim C7: each memoized accessor computes its value at most once per
instance: a first access leaves its result in the cache slot, and any
access on a state whose slot is already filled returns the cached value
with the instance unchanged — no recomputation — even if the constructor
inputs are mutated afterwards and the store resolves differently. -/
theorem DBValidator_cachedprop {DB Table QSet Field : Type}
    (ops ops2 : StoreOps DB Table QSet Field)
    (s : DBValidator DB Table QSet Field) (db2 : DB) (tn2 fn2 : String)
    (ds2 : Option (DB → QSet)) :
    ((DBValidator.table ops s).2.cacheTable = some (DBValidator.table ops s).1 ∧
     (DBValidator.dbset ops s).2.cacheDbset = some (DBValidator.dbset ops s).1 ∧
     (DBValidator.field ops s).2.cacheField = some (DBValidator.field ops s).1) ∧
    (∀ t, s.cacheTable = some t →
      DBValidator.table ops2 (DBValidator.mutate s db2 tn2 fn2 ds2) =
        (t, DBValidator.mutate s db2 tn2 fn2 ds2)) ∧
    (∀ q, s.cacheDbset = some q →
      DBValidator.dbset ops2 (DBValidator.mutate s db2 tn2 fn2 ds2) =
        (q, DBValidator.mutate s db2 tn2 fn2 ds2)) ∧
    (∀ f, s.cacheField = some f →
      DBValidator.field ops2 (DBValidator.mutate s db2 tn2 fn2 ds2) =
        (f, DBValidator.mutate s db2 tn2 fn2 ds2)) := by
  rcases s with ⟨db, tn, fn, ds, ct, cq, cf⟩
  refine ⟨⟨?_, ?_, ?_⟩, ?_, ?_, ?_⟩
  · cases ct <;> rfl
  · cases cq with
    | some q => rfl
    | none => cases ds with
      | some f => rfl
      | none => cases ct <;> rfl
  · cases cf with
    | some f => rfl
    | none => cases ct <;> rfl
  · intro t ht
    simp only [DBValidator.mutate, DBValidator.table] at *
    subst ht
    rfl
  · intro q hq
    simp only [DBValidator.mutate, DBValidator.dbset] at *
    subst hq
    rfl
  · intro f hf
    simp only [DBValidator.mutate, DBValidator.field] at *
    subst hf
    rfl

/-- Witness for claim C7 at a concrete instantiation: an instance with all
three slots filled returns the cached values after its inputs are
mutated. -/
theorem DBValidator_cachedprop_witness :
    DBValidator.table ⟨fun _ _ => 0, fun _ _ => 0, fun _ _ => 0⟩
      (DBValidator.mutate
        (⟨1, "t", "id", Option.none, some 5, some 6, some 7⟩ :
          DBValidator Nat Nat Nat Nat) 2 "u" "name" Option.none) =
      (5, DBValidator.mutate
        (⟨1, "t", "id", Option.none, some 5, some 6, some 7⟩ :
          DBValidator Nat Nat Nat Nat) 2 "u" "name" Option.none) :=
  (DBValidator_cachedprop ⟨fun _ _ => 9, fun _ _ => 9, fun _ _ => 9⟩
    ⟨fun _ _ => 0, fun _ _ => 0, fun _ _ => 0⟩
    ⟨1, "t", "id", Option.none, some 5, some 6, some 7⟩ 2 "u" "name"
    Option.none).2.1 5 rfl

/-- A fetched row of the external store as the record validators consume
it: its id and the value of the validated field.  Modelled from the spec:
rows expose field access, the id and the validated field being the only
columns read here. -/
structure Row where
  id : Int
  fval : Int

/-- Modelled from the spec: dbset.where(field == value) — the filtered
query-set keeps exactly the rows whose validated field equals the value,
in fetch order. -/
def whereFieldEq (rows : List Row) (v : Int) : List Row :=
  rows.filter (fun r => r.fval == v)

/-- A value handled by inDB: a scalar or a list of scalars. -/
inductive DBVal where
  | one : Int → DBVal
  | many : List Int → DBVal

/-- The normalization of inDB.__call__ in multiple mode: a list stays
as-is, anything else becomes a singleton. -/
def DBVal.asList : DBVal → List Int
  | .many vs => vs
  | .one v => [v]

/-- The multiple-mode branch of inDB.__call__: normalize the value into a
list, fetch all rows of the query-set and read each at index 0 — its id,
per the spec — then pass with the normalized list iff no value is missing
from the fetched ids, else fail with the translated message. -/
def inDB.callMultiple (rows : List Row) (message : String) (value : DBVal) :
    DBVal × Option String :=
  let values := value.asList
  let records := rows.map (fun i => i.id)
  if (values.filter (fun v => !records.contains v)).isEmpty then
    (DBVal.many values, Option.none)
  else (value, some (Weppy.translate message))

/-- notInDB.__call__: fetch at most one row whose validated field equals
the value (limitby (0,1), first); pass when there is none, pass when its id
equals the ambient currently-editing record id, and fail otherwise.  The
ambient slot current._dbvalidation_record_id_ is modelled from the spec as
an optional id, read-only here, absent reading as None. -/
def notInDB.call (rows : List Row) (recordId : Option Int) (message : String)
    (value : Int) : Int × Option String :=
  match (whereFieldEq rows value).head? with
  | some row =>
    if some row.id ≠ recordId then (value, some (Weppy.translate message))
    else (value, Option.none)
  | Option.none => (value, Option.none)

/-- Claim C6: in multiple mode inDB passes, returning the normalized value
list with no error, exactly when every value of the input list is among
the ids of the fetched rows; otherwise it returns the original value with
the translated message. -/
theorem inDB_multiple_characterization (rows : List Row) (msg : String)
    (value : DBVal) :
    ((inDB.callMultiple rows msg value).2 = Option.none ↔
      ∀ v ∈ value.asList, v ∈ rows.map (fun i => i.id)) ∧
    ((∀ v ∈ value.asList, v ∈ rows.map (fun i => i.id)) →
      inDB.callMultiple rows msg value = (DBVal.many value.asList, Option.none)) ∧
    ((¬ ∀ v ∈ value.asList, v ∈ rows.map (fun i => i.id)) →
      inDB.callMultiple rows msg value = (value, some (Weppy.translate msg))) := by
  have hkey : ((value.asList.filter
      (fun v => !(rows.map (fun i => i.id)).contains v)).isEmpty = true) ↔
      ∀ v ∈ value.asList, v ∈ rows.map (fun i => i.id) := by
    rw [List.isEmpty_iff, List.filter_eq_nil_iff]
    constructor
    · intro h v hv
      have := h v hv
      simpa [List.contains, List.elem_iff] using this
    · intro h v hv
      simp [List.contains, List.elem_iff, h v hv]
  unfold inDB.callMultiple
  by_cases hc : ∀ v ∈ value.asList, v ∈ rows.map (fun i => i.id)
  · rw [if_pos (hkey.mpr hc)]
    exact ⟨iff_of_true rfl hc, fun _ => rfl, fun h => absurd hc h⟩
  · rw [if_neg (fun h => hc (hkey.mp h))]
    exact ⟨iff_of_false (by simp) hc, fun h => absurd h hc, fun _ => rfl⟩

/-- Witness for claim C6: fetched rows with ids 1 and 2, values [1, 2]
pass as the normalized list. -/
theorem inDB_multiple_characterization_witness :
    inDB.callMultiple [Row.mk 1 1, Row.mk 2 2] "Invalid" (DBVal.many [1, 2]) =
      (DBVal.many [1, 2], Option.none) :=
  (inDB_multiple_characterization [Row.mk 1 1, Row.mk 2 2] "Invalid"
    (DBVal.many [1, 2])).2.1 (by decide)

/-- Claim C1: notInDB passes when no row of the filtered query-set matches
the value; when a matching row exists (the first fetched), it passes
exactly when the id of that row equals the ambient currently-editing record id,
and otherwise fails with the translated message. -/
theorem notInDB_characterization (rows : List Row) (recordId : Option Int)
    (msg : String) (v : Int) :
    (whereFieldEq rows v = [] → notInDB.call rows recordId msg v = (v, Option.none)) ∧
    (∀ row, (whereFieldEq rows v).head? = some row →
      (notInDB.call rows recordId msg v = (v, Option.none) ↔
        some row.id = recordId) ∧
      (some row.id ≠ recordId →
        notInDB.call rows recordId msg v = (v, some (Weppy.translate msg)))) := by
  constructor
  · intro h
    unfold notInDB.call
    rw [h]
    rfl
  · intro row hrow
    unfold notInDB.call
    rw [hrow]
    by_cases hid : some row.id = recordId
    · simp [hid]
    · simp [hid]

/-- Witness for claim C1: one row with id 7 and field value 42; checking 42
passes while editing record 7 and fails while editing record 8. -/
theorem notInDB_characterization_witness :
    notInDB.call [Row.mk 7 42] (some 7) "taken" 42 = (42, Option.none) ∧
    notInDB.call [Row.mk 7 42] (some 8) "taken" 42 = (42, some ("taken")) :=
  ⟨((notInDB_characterization [Row.mk 7 42] (some 7) "taken" 42).2
      (Row.mk 7 42) rfl).1.mpr rfl,
   ((notInDB_characterization [Row.mk 7 42] (some 8) "taken" 42).2
      (Row.mk 7 42) rfl).2 (by decide)⟩
